import Mathlib

/-!
Verification of the icon-wall grid layout generator (`src/main.py`).

The planner arithmetic of `generate_background_image` is embedded over ℚ
(Python floats are modelled as exact rationals; integer `//` division as
Nat division).  `canvas_size` is the pair handed to the imaging library,
whose first component is the canvas width used in all horizontal
computations; we write `W = canvas_size[0]`, `H = canvas_size[1]`.
-/

namespace IconWall

/-- Model of `int(math.ceil(q))` for a nonnegative rational `q`. -/
def ceilDivQ (a b : ℕ) : ℕ := ⌈(a : ℚ) / (b : ℚ)⌉₊

/-- Model of `int(math.ceil(math.sqrt(q)))` for a rational `q`:
the least natural `k` with `q ≤ k ^ 2` (for `q > 0`). -/
def ceilSqrtQ (q : ℚ) : ℕ :=
  if q ≤ (Nat.sqrt ⌈q⌉₊ : ℚ) ^ 2 then Nat.sqrt ⌈q⌉₊ else Nat.sqrt ⌈q⌉₊ + 1

/-- Line 79: `num_columns = int(math.ceil(math.sqrt(num_images * (canvas_size[0] / canvas_size[1]))))`,
the initial column count before rebalancing. -/
def num_columns0 (n W H : ℕ) : ℕ := ceilSqrtQ ((n : ℚ) * ((W : ℚ) / (H : ℚ)))

/-- Line 81: `num_rows = int(math.ceil(num_images / num_columns))`. -/
def num_rows (n W H : ℕ) : ℕ := ceilDivQ n (num_columns0 n W H)

/-- Line 82: `num_columns = int(math.ceil(num_images / num_rows))`, the rebalanced column count. -/
def num_columns (n W H : ℕ) : ℕ := ceilDivQ n (num_rows n W H)

/-- Line 87: `full_icon_size = min(canvas_size[0] // (num_columns + 1), canvas_size[1] // num_rows)`. -/
def full_icon_size (n W H : ℕ) : ℕ :=
  min (W / (num_columns n W H + 1)) (H / num_rows n W H)

/-- Line 88: `icon_size = full_icon_size * 0.70` (initial icon size before any row adjustment). -/
def icon_size0 (n W H : ℕ) : ℚ := (full_icon_size n W H : ℚ) * (70 / 100)

/-- Line 91: `min_gap_size = icon_size * min_gap_ratio`. -/
def min_gap_size (n W H : ℕ) (ratio : ℚ) : ℚ := icon_size0 n W H * ratio

/-- Line 101: `columns_in_row = num_columns` (full grid column count for every row). -/
def columnsInRow (n W H : ℕ) (r : ℕ) : ℕ := num_columns n W H

/-- Lines 103-112: per-row icon-size update.  With the row's incoming
`icon` size, if `canvas_size[0] - columns_in_row * icon_size` is below
`(columns_in_row + 1) * min_gap_size` the icon size is reassigned to
`(canvas_size[0] - (columns_in_row + 1) * min_gap_size) / columns_in_row`;
the `columns_in_row <= 0` guard (line 103) skips the row entirely. -/
def rowStep (W C : ℕ) (mg icon : ℚ) : ℚ :=
  if C = 0 then icon
  else if (W : ℚ) - (C : ℚ) * icon < ((C : ℚ) + 1) * mg then
    ((W : ℚ) - ((C : ℚ) + 1) * mg) / (C : ℚ)
  else icon

/-- The icon size entering row `r` (the mutable `icon_size` at the top of
loop iteration `r`). -/
def iconBefore (n W H : ℕ) (ratio : ℚ) : ℕ → ℚ
  | 0 => icon_size0 n W H
  | r + 1 => rowStep W (num_columns n W H) (min_gap_size n W H ratio) (iconBefore n W H ratio r)

/-- The icon size in effect while placing row `r` (after the line 110-111
adjustment for that row). -/
def iconAt (n W H : ℕ) (ratio : ℚ) (r : ℕ) : ℚ := iconBefore n W H ratio (r + 1)

/-- Lines 107/112: `total_gap = canvas_size[0] - (columns_in_row * icon_size)`
with the row's in-effect icon size. -/
def totalGapAt (n W H : ℕ) (ratio : ℚ) (r : ℕ) : ℚ :=
  (W : ℚ) - (num_columns n W H : ℚ) * iconAt n W H ratio r

/-- Line 115: `gap_size = total_gap / (columns_in_row + 1)`. -/
def gapAt (n W H : ℕ) (ratio : ℚ) (r : ℕ) : ℚ :=
  totalGapAt n W H ratio r / ((num_columns n W H : ℚ) + 1)

/-- Line 118: `start_gap = gap_size * (1 if row % 2 == 0 else 2)`. -/
def startGapAt (n W H : ℕ) (ratio : ℚ) (r : ℕ) : ℚ :=
  gapAt n W H ratio r * (if r % 2 = 0 then 1 else 2)

/-- Total number of items the placement loop actually places
(the loop visits `num_rows * num_columns` cells and stops at `num_images`). -/
def placedCount (n W H : ℕ) : ℕ := min n (num_rows n W H * num_columns n W H)

/-- Number of items placed in row `r`: the loop places indices
`r * num_columns, ...` while below both `num_columns` per row and `n` overall. -/
def itemsInRow (n W H : ℕ) (r : ℕ) : ℕ :=
  min (num_columns n W H) (n - r * num_columns n W H)

/-- Row index of the `k`-th placed item (items fill rows left to right). -/
def rowOf (n W H : ℕ) (k : ℕ) : ℕ := k / num_columns n W H

/-- Column index of the `k`-th placed item. -/
def colOf (n W H : ℕ) (k : ℕ) : ℕ := k % num_columns n W H

/-- Line 126: `x_position = start_gap + col * (icon_size + gap_size)`. -/
def xPosition (n W H : ℕ) (ratio : ℚ) (k : ℕ) : ℚ :=
  startGapAt n W H ratio (rowOf n W H k)
    + (colOf n W H k : ℚ) * (iconAt n W H ratio (rowOf n W H k) + gapAt n W H ratio (rowOf n W H k))

/-- Line 127: `y_position = (full_icon_size - icon_size) / 2 + row * full_icon_size`. -/
def yPosition (n W H : ℕ) (ratio : ℚ) (k : ℕ) : ℚ :=
  ((full_icon_size n W H : ℚ) - iconAt n W H ratio (rowOf n W H k)) / 2
    + (rowOf n W H k : ℚ) * (full_icon_size n W H : ℚ)

/-- An item, with its icon extent, stays inside the canvas rectangle. -/
def withinCanvas (n W H : ℕ) (ratio : ℚ) (k : ℕ) : Prop :=
  0 ≤ xPosition n W H ratio k
    ∧ xPosition n W H ratio k + iconAt n W H ratio (rowOf n W H k) ≤ (W : ℚ)
    ∧ 0 ≤ yPosition n W H ratio k
    ∧ yPosition n W H ratio k + iconAt n W H ratio (rowOf n W H k) ≤ (H : ℚ)

/-- The ceiling-of-quotient function satisfies `a ≤ ⌈a/b⌉ * b`. -/
theorem ceilDivQ_le_mul (a b : ℕ) (hb : b ≠ 0) : a ≤ ceilDivQ a b * b := by
  have hbq : (0 : ℚ) < (b : ℚ) := by exact_mod_cast Nat.pos_of_ne_zero hb
  have h := Nat.le_ceil ((a : ℚ) / (b : ℚ))
  rw [div_le_iff hbq] at h
  exact_mod_cast h

/-- The ceiling-of-quotient function is the least such value:
`(⌈a/b⌉ - 1) * b < a` whenever `a ≠ 0`. -/
theorem ceilDivQ_pred_mul_lt (a b : ℕ) (ha : a ≠ 0) (hb : b ≠ 0) :
    (ceilDivQ a b - 1) * b < a := by
  have hbq : (0 : ℚ) < (b : ℚ) := by exact_mod_cast Nat.pos_of_ne_zero hb
  have haq : (0 : ℚ) < (a : ℚ) := by exact_mod_cast Nat.pos_of_ne_zero ha
  have hx : (0 : ℚ) ≤ (a : ℚ) / (b : ℚ) := le_of_lt (div_pos haq hbq)
  have h := Nat.ceil_lt_add_one hx
  rcases Nat.eq_zero_or_pos (ceilDivQ a b) with h0 | h0
  · rw [h0]
    simpa using Nat.pos_of_ne_zero ha
  · have hc : ((ceilDivQ a b - 1 : ℕ) : ℚ) = (ceilDivQ a b : ℚ) - 1 := by
      push_cast [Nat.cast_sub h0]
      ring
    have h2 : ((ceilDivQ a b - 1 : ℕ) : ℚ) < (a : ℚ) / (b : ℚ) := by
      rw [hc]
      have := Nat.ceil_lt_add_one hx
      unfold ceilDivQ
      linarith
    rw [lt_div_iff hbq] at h2
    exact_mod_cast h2

/-- Positivity of the ceiling of a quotient of positive naturals. -/
theorem ceilDivQ_pos (a b : ℕ) (ha : a ≠ 0) (hb : b ≠ 0) : 0 < ceilDivQ a b := by
  have hbq : (0 : ℚ) < (b : ℚ) := by exact_mod_cast Nat.pos_of_ne_zero hb
  have haq : (0 : ℚ) < (a : ℚ) := by exact_mod_cast Nat.pos_of_ne_zero ha
  exact Nat.ceil_pos.mpr (div_pos haq hbq)

/-- Uniqueness: a natural `r` sandwiched by `(r-1)*b < a ≤ r*b` is the ceiling of `a/b`. -/
theorem ceilDivQ_eq (a b r : ℕ) (hb : b ≠ 0) (hr : r ≠ 0)
    (h1 : a ≤ r * b) (h2 : (r - 1) * b < a) : ceilDivQ a b = r := by
  have hbq : (0 : ℚ) < (b : ℚ) := by exact_mod_cast Nat.pos_of_ne_zero hb
  rw [ceilDivQ, Nat.ceil_eq_iff hr]
  constructor
  · rw [lt_div_iff hbq]
    exact_mod_cast h2
  · rw [div_le_iff hbq]
    exact_mod_cast h1

/-- The value of `ceilSqrtQ q` squared dominates `q`. -/
theorem ceilSqrtQ_sq_ge (q : ℚ) : q ≤ (ceilSqrtQ q : ℚ) ^ 2 := by
  unfold ceilSqrtQ
  split
  · assumption
  · have h1 : q ≤ (⌈q⌉₊ : ℚ) := Nat.le_ceil q
    have h2 : (⌈q⌉₊ : ℕ) < (Nat.sqrt ⌈q⌉₊ + 1) ^ 2 := Nat.lt_succ_sqrt' ⌈q⌉₊
    have h3 : ((⌈q⌉₊ : ℕ) : ℚ) ≤ ((Nat.sqrt ⌈q⌉₊ + 1 : ℕ) : ℚ) ^ 2 := by
      exact_mod_cast le_of_lt (by exact_mod_cast h2)
    exact le_trans h1 h3

/-- Minimality of `ceilSqrtQ`: any natural whose square dominates `q` is at least as large. -/
theorem ceilSqrtQ_min (q : ℚ) (k : ℕ) (hk : q ≤ (k : ℚ) ^ 2) : ceilSqrtQ q ≤ k := by
  have hck : ⌈q⌉₊ ≤ k ^ 2 := by
    rw [Nat.ceil_le]
    exact_mod_cast hk
  unfold ceilSqrtQ
  split
  · by_contra hlt
    push_neg at hlt
    have h1 : k + 1 ≤ Nat.sqrt ⌈q⌉₊ := hlt
    have h2 : (k + 1) ^ 2 ≤ (Nat.sqrt ⌈q⌉₊) ^ 2 := Nat.pow_le_pow_left h1 2
    have h3 : (Nat.sqrt ⌈q⌉₊) ^ 2 ≤ ⌈q⌉₊ := Nat.sqrt_le' ⌈q⌉₊
    nlinarith
  · rename_i hcond
    push_neg at hcond
    by_contra hlt
    push_neg at hlt
    have h1 : k ≤ Nat.sqrt ⌈q⌉₊ := Nat.lt_succ_iff.mp hlt
    have h2 : (k : ℚ) ^ 2 ≤ ((Nat.sqrt ⌈q⌉₊ : ℕ) : ℚ) ^ 2 := by
      have : (k : ℚ) ≤ ((Nat.sqrt ⌈q⌉₊ : ℕ) : ℚ) := by exact_mod_cast h1
      have hk0 : (0 : ℚ) ≤ (k : ℚ) := by positivity
      nlinarith
    exact absurd (le_trans hk h2) (not_le.mpr hcond)

/-- Positivity of `ceilSqrtQ` on positive rationals. -/
theorem ceilSqrtQ_pos (q : ℚ) (hq : 0 < q) : 0 < ceilSqrtQ q := by
  rcases Nat.eq_zero_or_pos (ceilSqrtQ q) with h0 | h0
  · have := ceilSqrtQ_sq_ge q
    rw [h0] at this
    norm_num at this
    linarith
  · exact h0

/-- Lower characterization for `ceilSqrtQ` on positive rationals. -/
theorem ceilSqrtQ_pred_sq_lt (q : ℚ) (hq : 0 < q) : ((ceilSqrtQ q : ℚ) - 1) ^ 2 < q := by
  by_contra hcon
  push_neg at hcon
  have hpos : 0 < ceilSqrtQ q := ceilSqrtQ_pos q hq
  have hcast : ((ceilSqrtQ q - 1 : ℕ) : ℚ) = (ceilSqrtQ q : ℚ) - 1 := by
    push_cast [Nat.cast_sub hpos]
    ring
  have h1 : q ≤ ((ceilSqrtQ q - 1 : ℕ) : ℚ) ^ 2 := by rw [hcast]; exact hcon
  have h2 := ceilSqrtQ_min q (ceilSqrtQ q - 1) h1
  omega

/-- Uniqueness: a natural `k` with `(k-1)^2 < q ≤ k^2` is `ceilSqrtQ q`. -/
theorem ceilSqrtQ_eq (q : ℚ) (k : ℕ) (h1 : q ≤ (k : ℚ) ^ 2) (h2 : ((k : ℚ) - 1) ^ 2 < q) :
    ceilSqrtQ q = k := by
  have hle := ceilSqrtQ_min q k h1
  rcases lt_or_eq_of_le hle with hlt | heq
  · exfalso
    have hk : 1 ≤ k := Nat.one_le_iff_ne_zero.mpr (by rintro rfl; omega)
    have hle2 : ceilSqrtQ q ≤ k - 1 := by omega
    have hc : ((ceilSqrtQ q : ℕ) : ℚ) ≤ ((k - 1 : ℕ) : ℚ) := by exact_mod_cast hle2
    have h0 : (0 : ℚ) ≤ (ceilSqrtQ q : ℚ) := by positivity
    have hs : (ceilSqrtQ q : ℚ) ^ 2 ≤ ((k - 1 : ℕ) : ℚ) ^ 2 := by nlinarith
    have hq : q ≤ ((k - 1 : ℕ) : ℚ) ^ 2 := le_trans (ceilSqrtQ_sq_ge q) hs
    have hcast : ((k - 1 : ℕ) : ℚ) = (k : ℚ) - 1 := by
      push_cast [Nat.cast_sub hk]
      ring
    rw [hcast] at hq
    linarith
  · exact heq

/-- The canvas aspect quantity fed to the square root is positive. -/
theorem aspect_pos (n W H : ℕ) (hn : 0 < n) (hW : 0 < W) (hH : 0 < H) :
    0 < (n : ℚ) * ((W : ℚ) / (H : ℚ)) := by
  have h1 : (0 : ℚ) < (n : ℚ) := by exact_mod_cast hn
  have h2 : (0 : ℚ) < (W : ℚ) := by exact_mod_cast hW
  have h3 : (0 : ℚ) < (H : ℚ) := by exact_mod_cast hH
  exact mul_pos h1 (div_pos h2 h3)

/-- The initial column count is positive for nonempty input on a positive canvas. -/
theorem num_columns0_pos (n W H : ℕ) (hn : 0 < n) (hW : 0 < W) (hH : 0 < H) :
    0 < num_columns0 n W H :=
  ceilSqrtQ_pos _ (aspect_pos n W H hn hW hH)

/-- The row count is positive for nonempty input on a positive canvas. -/
theorem num_rows_pos (n W H : ℕ) (hn : 0 < n) (hW : 0 < W) (hH : 0 < H) :
    0 < num_rows n W H :=
  ceilDivQ_pos n _ hn.ne' (num_columns0_pos n W H hn hW hH).ne'

/-- The rebalanced column count is positive for nonempty input on a positive canvas. -/
theorem num_columns_pos (n W H : ℕ) (hn : 0 < n) (hW : 0 < W) (hH : 0 < H) :
    0 < num_columns n W H :=
  ceilDivQ_pos n _ hn.ne' (num_rows_pos n W H hn hW hH).ne'

/-- Grid capacity: the rebalanced grid holds all the items. -/
theorem items_le_grid (n W H : ℕ) (hn : 0 < n) (hW : 0 < W) (hH : 0 < H) :
    n ≤ num_columns n W H * num_rows n W H :=
  ceilDivQ_le_mul n _ (num_rows_pos n W H hn hW hH).ne'

/-- The base icon size leaves one extra column of headroom:
`(columns + 1) * full_icon_size ≤ canvas width`. -/
theorem full_icon_size_headroom (n W H : ℕ) :
    ((num_columns n W H : ℚ) + 1) * (full_icon_size n W H : ℚ) ≤ (W : ℚ) := by
  have h1 : full_icon_size n W H ≤ W / (num_columns n W H + 1) :=
    min_le_left _ _
  have h2 : full_icon_size n W H * (num_columns n W H + 1) ≤ W :=
    (Nat.le_div_iff_mul_le (Nat.succ_pos _)).mp h1
  have h3 : ((full_icon_size n W H * (num_columns n W H + 1) : ℕ) : ℚ) ≤ (W : ℚ) := by
    exact_mod_cast h2
  push_cast at h3
  linarith

/-- The pre-shrunk icons of a full row never cover the whole canvas width. -/
theorem columns_mul_icon0_lt (n W H : ℕ) (hW : 0 < W) :
    (num_columns n W H : ℚ) * icon_size0 n W H < (W : ℚ) := by
  have h1 := full_icon_size_headroom n W H
  have h2 : (0 : ℚ) ≤ (full_icon_size n W H : ℚ) := by positivity
  have h3 : (0 : ℚ) ≤ (num_columns n W H : ℚ) := by positivity
  have h4 : (0 : ℚ) < (W : ℚ) := by exact_mod_cast hW
  unfold icon_size0
  nlinarith

/-- One row iteration never increases the icon size. -/
theorem rowStep_le (W C : ℕ) (mg icon : ℚ) (hC : C ≠ 0) : rowStep W C mg icon ≤ icon := by
  have hCq : (0 : ℚ) < (C : ℚ) := by exact_mod_cast Nat.pos_of_ne_zero hC
  unfold rowStep
  rw [if_neg hC]
  split
  · rename_i h
    rw [div_le_iff hCq]
    linarith
  · exact le_refl icon

/-- One row iteration is idempotent: a second pass with the adjusted icon
size finds the minimum-gap constraint already satisfied. -/
theorem rowStep_idem (W C : ℕ) (mg icon : ℚ) (hC : C ≠ 0) :
    rowStep W C mg (rowStep W C mg icon) = rowStep W C mg icon := by
  have hCq : (0 : ℚ) < (C : ℚ) := by exact_mod_cast Nat.pos_of_ne_zero hC
  by_cases h1 : (W : ℚ) - (C : ℚ) * icon < ((C : ℚ) + 1) * mg
  · have hs : rowStep W C mg icon = ((W : ℚ) - ((C : ℚ) + 1) * mg) / (C : ℚ) := by
      unfold rowStep
      rw [if_neg hC, if_pos h1]
    rw [hs]
    unfold rowStep
    rw [if_neg hC, if_neg]
    rw [mul_div_cancel₀ _ hCq.ne']
    simp
  · have hs : rowStep W C mg icon = icon := by
      unfold rowStep
      rw [if_neg hC, if_neg h1]
    rw [hs]
    unfold rowStep
    rw [if_neg hC, if_neg h1]

/-- The icon size entering any row never exceeds the initial icon size. -/
theorem iconBefore_le (n W H : ℕ) (ratio : ℚ) (hC : num_columns n W H ≠ 0) :
    ∀ r, iconBefore n W H ratio r ≤ icon_size0 n W H
  | 0 => le_refl _
  | r + 1 => by
    rw [iconBefore]
    exact le_trans (rowStep_le _ _ _ _ hC) (iconBefore_le n W H ratio hC r)

/-- The in-effect icon size of any row never exceeds the initial icon size. -/
theorem iconAt_le (n W H : ℕ) (ratio : ℚ) (hC : num_columns n W H ≠ 0) (r : ℕ) :
    iconAt n W H ratio r ≤ icon_size0 n W H :=
  iconBefore_le n W H ratio hC (r + 1)

/-- The row loop stabilizes after the first row: every row works with the
same (possibly shrunk) icon size. -/
theorem iconAt_const (n W H : ℕ) (ratio : ℚ) (hC : num_columns n W H ≠ 0) :
    ∀ r, iconAt n W H ratio r = iconAt n W H ratio 0
  | 0 => rfl
  | r + 1 => by
    have h1 : iconAt n W H ratio (r + 1)
        = rowStep W (num_columns n W H) (min_gap_size n W H ratio) (iconAt n W H ratio r) := rfl
    rw [h1, iconAt_const n W H ratio hC r]
    have h2 : iconAt n W H ratio 0
        = rowStep W (num_columns n W H) (min_gap_size n W H ratio) (icon_size0 n W H) := rfl
    rw [h2, rowStep_idem _ _ _ _ hC]

/-- Case analysis for the in-effect icon size of row `r`: either the
minimum-gap adjustment fired and the icon was recomputed, or it did not
fire and the incoming icon size is kept. -/
theorem iconAt_cases (n W H : ℕ) (ratio : ℚ) (hC : num_columns n W H ≠ 0) (r : ℕ) :
    ((W : ℚ) - (num_columns n W H : ℚ) * iconBefore n W H ratio r
        < ((num_columns n W H : ℚ) + 1) * min_gap_size n W H ratio
      ∧ iconAt n W H ratio r
        = ((W : ℚ) - ((num_columns n W H : ℚ) + 1) * min_gap_size n W H ratio)
            / (num_columns n W H : ℚ))
    ∨ (¬ ((W : ℚ) - (num_columns n W H : ℚ) * iconBefore n W H ratio r
        < ((num_columns n W H : ℚ) + 1) * min_gap_size n W H ratio)
      ∧ iconAt n W H ratio r = iconBefore n W H ratio r) := by
  have h1 : iconAt n W H ratio r
      = rowStep W (num_columns n W H) (min_gap_size n W H ratio) (iconBefore n W H ratio r) := rfl
  by_cases h : (W : ℚ) - (num_columns n W H : ℚ) * iconBefore n W H ratio r
      < ((num_columns n W H : ℚ) + 1) * min_gap_size n W H ratio
  · left
    refine ⟨h, ?_⟩
    rw [h1]
    unfold rowStep
    rw [if_neg hC, if_pos h]
  · right
    refine ⟨h, ?_⟩
    rw [h1]
    unfold rowStep
    rw [if_neg hC, if_neg h]

/-- The total per-row gap is strictly positive. -/
theorem totalGapAt_pos (n W H : ℕ) (ratio : ℚ) (hW : 0 < W) (hratio : 0 ≤ ratio)
    (hC : num_columns n W H ≠ 0) (r : ℕ) : 0 < totalGapAt n W H ratio r := by
  have hCq : (0 : ℚ) < (num_columns n W H : ℚ) := by
    exact_mod_cast Nat.pos_of_ne_zero hC
  have hbound := columns_mul_icon0_lt n W H hW
  have hbefore : iconBefore n W H ratio r ≤ icon_size0 n W H := iconBefore_le n W H ratio hC r
  have hmono : (num_columns n W H : ℚ) * iconBefore n W H ratio r
      ≤ (num_columns n W H : ℚ) * icon_size0 n W H :=
    mul_le_mul_of_nonneg_left hbefore (le_of_lt hCq)
  unfold totalGapAt
  rcases iconAt_cases n W H ratio hC r with ⟨hcond, heq⟩ | ⟨hcond, heq⟩
  · rw [heq, mul_div_cancel₀ _ hCq.ne']
    linarith
  · rw [heq]
    linarith

/-- The per-row gap size is strictly positive. -/
theorem gapAt_pos (n W H : ℕ) (ratio : ℚ) (hW : 0 < W) (hratio : 0 ≤ ratio)
    (hC : num_columns n W H ≠ 0) (r : ℕ) : 0 < gapAt n W H ratio r := by
  have h1 := totalGapAt_pos n W H ratio hW hratio hC r
  have h2 : (0 : ℚ) < (num_columns n W H : ℚ) + 1 := by positivity
  exact div_pos h1 h2

/-- Minimum-gap invariant: every row's gap is at least `ratio` times that
row's in-effect icon size. -/
theorem gapAt_ge_min (n W H : ℕ) (ratio : ℚ) (hratio : 0 ≤ ratio)
    (hC : num_columns n W H ≠ 0) (r : ℕ) :
    ratio * iconAt n W H ratio r ≤ gapAt n W H ratio r := by
  have hCq : (0 : ℚ) < (num_columns n W H : ℚ) := by
    exact_mod_cast Nat.pos_of_ne_zero hC
  have hC1 : (0 : ℚ) < (num_columns n W H : ℚ) + 1 := by positivity
  have hicon : iconAt n W H ratio r ≤ icon_size0 n W H := iconAt_le n W H ratio hC r
  have hmin : ratio * iconAt n W H ratio r ≤ min_gap_size n W H ratio := by
    unfold min_gap_size
    rw [mul_comm (icon_size0 n W H) ratio]
    exact mul_le_mul_of_nonneg_left hicon hratio
  refine le_trans hmin ?_
  unfold gapAt
  rw [le_div_iff hC1]
  unfold totalGapAt
  rcases iconAt_cases n W H ratio hC r with ⟨hcond, heq⟩ | ⟨hcond, heq⟩
  · rw [heq, mul_div_cancel₀ _ hCq.ne']
    linarith
  · rw [heq]
    push_neg at hcond
    linarith

/-- With a min-gap ratio in `[0,1]` and a nonzero base icon size, every
row's in-effect icon size is strictly positive. -/
theorem iconAt_pos (n W H : ℕ) (ratio : ℚ) (hW : 0 < W) (h0 : 0 ≤ ratio) (h1 : ratio ≤ 1)
    (hC : num_columns n W H ≠ 0) (hfis : 1 ≤ full_icon_size n W H) (r : ℕ) :
    0 < iconAt n W H ratio r := by
  rw [iconAt_const n W H ratio hC r]
  have hCq : (0 : ℚ) < (num_columns n W H : ℚ) := by
    exact_mod_cast Nat.pos_of_ne_zero hC
  have hfq : (1 : ℚ) ≤ (full_icon_size n W H : ℚ) := by exact_mod_cast hfis
  have hWq : (0 : ℚ) < (W : ℚ) := by exact_mod_cast hW
  have hhead := full_icon_size_headroom n W H
  rcases iconAt_cases n W H ratio hC 0 with ⟨hcond, heq⟩ | ⟨hcond, heq⟩
  · rw [heq]
    apply div_pos _ hCq
    have hmg : ((num_columns n W H : ℚ) + 1) * min_gap_size n W H ratio
        ≤ ratio * ((70 : ℚ) / 100) * (W : ℚ) := by
      unfold min_gap_size icon_size0
      have hkey : ((num_columns n W H : ℚ) + 1) * (full_icon_size n W H : ℚ) ≤ (W : ℚ) :=
        hhead
      nlinarith
    nlinarith
  · rw [heq]
    show (0 : ℚ) < iconBefore n W H ratio 0
    unfold iconBefore icon_size0
    nlinarith

/-- All rows share the same total gap. -/
theorem totalGapAt_const (n W H : ℕ) (ratio : ℚ) (hC : num_columns n W H ≠ 0) (r : ℕ) :
    totalGapAt n W H ratio r = totalGapAt n W H ratio 0 := by
  unfold totalGapAt
  rw [iconAt_const n W H ratio hC r]

/-- All rows share the same gap size. -/
theorem gapAt_const (n W H : ℕ) (ratio : ℚ) (hC : num_columns n W H ≠ 0) (r : ℕ) :
    gapAt n W H ratio r = gapAt n W H ratio 0 := by
  unfold gapAt
  rw [totalGapAt_const n W H ratio hC r]

/-- Worked example, 10 items on a 1024×1024 canvas: initial column count. -/
theorem ex10_cols0 : num_columns0 10 1024 1024 = 4 := by
  unfold num_columns0
  rw [show ((10 : ℕ) : ℚ) * (((1024 : ℕ) : ℚ) / ((1024 : ℕ) : ℚ)) = 10 by norm_num]
  exact ceilSqrtQ_eq 10 4 (by norm_num) (by norm_num)

/-- Worked example: row count. -/
theorem ex10_rows : num_rows 10 1024 1024 = 3 := by
  unfold num_rows
  rw [ex10_cols0]
  exact ceilDivQ_eq 10 4 3 (by norm_num) (by norm_num) (by norm_num) (by norm_num)

/-- Worked example: rebalanced column count. -/
theorem ex10_cols : num_columns 10 1024 1024 = 4 := by
  unfold num_columns
  rw [ex10_rows]
  exact ceilDivQ_eq 10 3 4 (by norm_num) (by norm_num) (by norm_num) (by norm_num)

/-- Worked example: base icon size. -/
theorem ex10_fis : full_icon_size 10 1024 1024 = 204 := by
  unfold full_icon_size
  rw [ex10_cols, ex10_rows]
  rfl

/-- Worked example: shrunk initial icon size. -/
theorem ex10_icon0 : icon_size0 10 1024 1024 = 714 / 5 := by
  unfold icon_size0
  rw [ex10_fis]
  norm_num

/-- Worked example: minimum gap size at ratio 0.1. -/
theorem ex10_mg : min_gap_size 10 1024 1024 (1 / 10) = 357 / 25 := by
  unfold min_gap_size
  rw [ex10_icon0]
  norm_num

/-- Worked example: the icon size never shrinks (the naive gap is large enough). -/
theorem ex10_iconBefore : ∀ r, iconBefore 10 1024 1024 (1 / 10) r = 714 / 5
  | 0 => ex10_icon0
  | r + 1 => by
    have h : iconBefore 10 1024 1024 (1 / 10) (r + 1)
        = rowStep 1024 (num_columns 10 1024 1024) (min_gap_size 10 1024 1024 (1 / 10))
            (iconBefore 10 1024 1024 (1 / 10) r) := rfl
    rw [h, ex10_iconBefore r, ex10_cols, ex10_mg]
    unfold rowStep
    norm_num

/-- Worked example: in-effect icon size of every row. -/
theorem ex10_iconAt (r : ℕ) : iconAt 10 1024 1024 (1 / 10) r = 714 / 5 :=
  ex10_iconBefore (r + 1)

/-- Worked example: total gap of every row. -/
theorem ex10_totalGap (r : ℕ) : totalGapAt 10 1024 1024 (1 / 10) r = 2264 / 5 := by
  unfold totalGapAt
  rw [ex10_iconAt, ex10_cols]
  norm_num

/-- Worked example: gap size of every row. -/
theorem ex10_gap (r : ℕ) : gapAt 10 1024 1024 (1 / 10) r = 2264 / 25 := by
  unfold gapAt
  rw [ex10_totalGap, ex10_cols]
  norm_num

/-- Worked example: start offset of row 0 (one gap). -/
theorem ex10_start0 : startGapAt 10 1024 1024 (1 / 10) 0 = 2264 / 25 := by
  unfold startGapAt
  rw [ex10_gap]
  norm_num

/-- Worked example: start offset of row 1 (two gaps). -/
theorem ex10_start1 : startGapAt 10 1024 1024 (1 / 10) 1 = 4528 / 25 := by
  unfold startGapAt
  rw [ex10_gap]
  norm_num

/-- Degenerate example, one item on a 1×1 canvas: initial column count. -/
theorem ex1_cols0 : num_columns0 1 1 1 = 1 := by
  unfold num_columns0
  rw [show ((1 : ℕ) : ℚ) * (((1 : ℕ) : ℚ) / ((1 : ℕ) : ℚ)) = 1 by norm_num]
  exact ceilSqrtQ_eq 1 1 (by norm_num) (by norm_num)

/-- Degenerate example: row count. -/
theorem ex1_rows : num_rows 1 1 1 = 1 := by
  unfold num_rows
  rw [ex1_cols0]
  exact ceilDivQ_eq 1 1 1 (by norm_num) (by norm_num) (by norm_num) (by norm_num)

/-- Degenerate example: rebalanced column count. -/
theorem ex1_cols : num_columns 1 1 1 = 1 := by
  unfold num_columns
  rw [ex1_rows]
  exact ceilDivQ_eq 1 1 1 (by norm_num) (by norm_num) (by norm_num) (by norm_num)

/-- Degenerate example: the base icon size floors to zero. -/
theorem ex1_fis : full_icon_size 1 1 1 = 0 := by
  unfold full_icon_size
  rw [ex1_cols, ex1_rows]
  rfl

/-- Degenerate example: the in-effect icon size of row 0 is zero. -/
theorem ex1_iconAt0 : iconAt 1 1 1 (1 / 10) 0 = 0 := by
  have h : iconAt 1 1 1 (1 / 10) 0
      = rowStep 1 (num_columns 1 1 1) (min_gap_size 1 1 1 (1 / 10))
          (iconBefore 1 1 1 (1 / 10) 0) := rfl
  have h0 : iconBefore 1 1 1 (1 / 10) 0 = 0 := by
    show icon_size0 1 1 1 = 0
    unfold icon_size0
    rw [ex1_fis]
    norm_num
  have hmg : min_gap_size 1 1 1 (1 / 10) = 0 := by
    unfold min_gap_size icon_size0
    rw [ex1_fis]
    norm_num
  rw [h, h0, hmg, ex1_cols]
  unfold rowStep
  norm_num

/-- Helper for the worked example: every placed item stays inside the canvas. -/
theorem ex10_withinCanvas (k : ℕ) (hk : k < 10) : withinCanvas 10 1024 1024 (1 / 10) k := by
  unfold withinCanvas xPosition yPosition rowOf colOf
  rw [ex10_cols]
  interval_cases k <;>
    norm_num [ex10_iconAt, ex10_gap, ex10_fis, startGapAt]

/-- C1: for itemCount ≥ 1 on a positive canvas, the planner computes the
initial column count as ceiling(sqrt(itemCount · W/H)) (characterized by
(C₀−1)² < n·W/H ≤ C₀²), then the row count as ceiling(itemCount / C₀),
then recomputes the column count as ceiling(itemCount / rows) (each
ceiling characterized by its sandwiching inequalities). -/
theorem planner_grid_counts (n W H : ℕ) (hn : 0 < n) (hW : 0 < W) (hH : 0 < H) :
    (((num_columns0 n W H : ℚ) - 1) ^ 2 < (n : ℚ) * ((W : ℚ) / (H : ℚ))
        ∧ (n : ℚ) * ((W : ℚ) / (H : ℚ)) ≤ (num_columns0 n W H : ℚ) ^ 2)
    ∧ (n ≤ num_rows n W H * num_columns0 n W H
        ∧ (num_rows n W H - 1) * num_columns0 n W H < n)
    ∧ (n ≤ num_columns n W H * num_rows n W H
        ∧ (num_columns n W H - 1) * num_rows n W H < n) := by
  have hq := aspect_pos n W H hn hW hH
  have hc0 := (num_columns0_pos n W H hn hW hH).ne'
  have hr := (num_rows_pos n W H hn hW hH).ne'
  exact ⟨⟨ceilSqrtQ_pred_sq_lt _ hq, ceilSqrtQ_sq_ge _⟩,
    ⟨ceilDivQ_le_mul n _ hc0, ceilDivQ_pred_mul_lt n _ hn.ne' hc0⟩,
    ⟨ceilDivQ_le_mul n _ hr, ceilDivQ_pred_mul_lt n _ hn.ne' hr⟩⟩

/-- Witness for C1 at the worked example (10 items, 1024×1024 canvas). -/
theorem planner_grid_counts_witness :
    (((num_columns0 10 1024 1024 : ℚ) - 1) ^ 2
          < ((10 : ℕ) : ℚ) * (((1024 : ℕ) : ℚ) / ((1024 : ℕ) : ℚ))
        ∧ ((10 : ℕ) : ℚ) * (((1024 : ℕ) : ℚ) / ((1024 : ℕ) : ℚ))
          ≤ (num_columns0 10 1024 1024 : ℚ) ^ 2)
    ∧ (10 ≤ num_rows 10 1024 1024 * num_columns0 10 1024 1024
        ∧ (num_rows 10 1024 1024 - 1) * num_columns0 10 1024 1024 < 10)
    ∧ (10 ≤ num_columns 10 1024 1024 * num_rows 10 1024 1024
        ∧ (num_columns 10 1024 1024 - 1) * num_rows 10 1024 1024 < 10) :=
  planner_grid_counts 10 1024 1024 (by norm_num) (by norm_num) (by norm_num)

/-- C2: for every row, the final gap satisfies gap ≥ minGapRatio · iconSize,
and whenever the naive total gap is below `(columns+1) · minGapSize` the
icon size is recomputed as `(W − (columns+1)·minGapSize) / columns`, the
total gap is recomputed from the new icon size, and the uniform per-row
gap is `totalGap / (columns + 1)`. -/
theorem min_gap_invariant_holds (n W H : ℕ) (ratio : ℚ) (r : ℕ)
    (hn : 0 < n) (hW : 0 < W) (hH : 0 < H) (hratio : 0 ≤ ratio)
    (hr : r < num_rows n W H) :
    ratio * iconAt n W H ratio r ≤ gapAt n W H ratio r
    ∧ ((W : ℚ) - (num_columns n W H : ℚ) * iconBefore n W H ratio r
          < ((num_columns n W H : ℚ) + 1) * min_gap_size n W H ratio →
        iconAt n W H ratio r
            = ((W : ℚ) - ((num_columns n W H : ℚ) + 1) * min_gap_size n W H ratio)
                / (num_columns n W H : ℚ)
          ∧ totalGapAt n W H ratio r
            = (W : ℚ) - (num_columns n W H : ℚ) * iconAt n W H ratio r
          ∧ gapAt n W H ratio r
            = totalGapAt n W H ratio r / ((num_columns n W H : ℚ) + 1)) := by
  have hC := (num_columns_pos n W H hn hW hH).ne'
  refine ⟨gapAt_ge_min n W H ratio hratio hC r, fun hcond => ?_⟩
  rcases iconAt_cases n W H ratio hC r with ⟨_, heq⟩ | ⟨hnc, _⟩
  · exact ⟨heq, rfl, rfl⟩
  · exact absurd hcond hnc

/-- Witness for C2 at the worked example, row 0. -/
theorem min_gap_invariant_holds_witness :
    (1 / 10 : ℚ) * iconAt 10 1024 1024 (1 / 10) 0 ≤ gapAt 10 1024 1024 (1 / 10) 0 :=
  (min_gap_invariant_holds 10 1024 1024 (1 / 10) 0 (by norm_num) (by norm_num)
    (by norm_num) (by norm_num) (by rw [ex10_rows]; norm_num)).1

/-- Counterexample to C3 as stated: on the degenerate (but positive) 1×1
canvas with one item the plan is nonempty yet the computed icon size of
row 0 is zero, not strictly positive. -/
theorem degenerate_canvas_zero_icon :
    0 < num_rows 1 1 1 ∧ iconAt 1 1 1 (1 / 10) 0 = 0 := by
  constructor
  · rw [ex1_rows]
    norm_num
  · exact ex1_iconAt0

/-- C3 (amended): with a min-gap ratio in [0,1] and a canvas large enough
that the base icon size is at least one pixel, the plan has positive row
and column counts, capacity for all items, and strictly positive icon and
gap sizes in every row. -/
theorem plan_invariants (n W H : ℕ) (ratio : ℚ)
    (hn : 0 < n) (hW : 0 < W) (hH : 0 < H) (h0 : 0 ≤ ratio) (h1 : ratio ≤ 1)
    (hfis : 1 ≤ full_icon_size n W H) :
    0 < num_rows n W H ∧ 0 < num_columns n W H
    ∧ n ≤ num_rows n W H * num_columns n W H
    ∧ 0 < icon_size0 n W H
    ∧ ∀ r, r < num_rows n W H →
        0 < iconAt n W H ratio r ∧ 0 < gapAt n W H ratio r := by
  have hC := (num_columns_pos n W H hn hW hH).ne'
  have hfq : (1 : ℚ) ≤ (full_icon_size n W H : ℚ) := by exact_mod_cast hfis
  refine ⟨num_rows_pos n W H hn hW hH, num_columns_pos n W H hn hW hH, ?_, ?_, ?_⟩
  · rw [Nat.mul_comm]
    exact items_le_grid n W H hn hW hH
  · unfold icon_size0
    nlinarith
  · intro r _
    exact ⟨iconAt_pos n W H ratio hW h0 h1 hC hfis r,
      gapAt_pos n W H ratio hW h0 hC r⟩

/-- Witness for C3 (amended) at the worked example, row 0. -/
theorem plan_invariants_witness :
    0 < iconAt 10 1024 1024 (1 / 10) 0 ∧ 0 < gapAt 10 1024 1024 (1 / 10) 0 :=
  (plan_invariants 10 1024 1024 (1 / 10) (by norm_num) (by norm_num) (by norm_num)
      (by norm_num) (by norm_num) (by rw [ex10_fis]; norm_num)).2.2.2.2
    0 (by rw [ex10_rows]; norm_num)

/-- Counterexample to C4 as stated: at the worked example the base icon
size (1024 // 5 = 204) is not the exact quotient min(1024/5, 1024/3) = 204.8;
the code floors each quotient with integer division. -/
theorem base_icon_not_exact_div :
    (full_icon_size 10 1024 1024 : ℚ)
      ≠ min ((1024 : ℚ) / ((num_columns 10 1024 1024 : ℚ) + 1))
          ((1024 : ℚ) / (num_rows 10 1024 1024 : ℚ)) := by
  rw [ex10_fis, ex10_cols, ex10_rows]
  have hmin : min ((1024 : ℚ) / (((4 : ℕ) : ℚ) + 1)) ((1024 : ℚ) / ((3 : ℕ) : ℚ))
      = (1024 : ℚ) / 5 := by
    rw [min_eq_left] <;> norm_num
  rw [hmin]
  norm_num

/-- C4 (amended): the base icon size is min(⌊W/(columns+1)⌋, ⌊H/rows⌋)
(each quotient floored by integer division); the working icon size is the
base size scaled by the fixed factor 0.70, and the minimum gap is
iconSize · minGapRatio. -/
theorem base_icon_floor_div (n W H : ℕ) (ratio : ℚ) :
    full_icon_size n W H
        = min (⌊(W : ℚ) / ((num_columns n W H : ℚ) + 1)⌋₊)
            (⌊(H : ℚ) / (num_rows n W H : ℚ)⌋₊)
    ∧ icon_size0 n W H = (full_icon_size n W H : ℚ) * (70 / 100)
    ∧ min_gap_size n W H ratio = icon_size0 n W H * ratio := by
  refine ⟨?_, rfl, rfl⟩
  have h1 : ⌊(W : ℚ) / ((num_columns n W H : ℚ) + 1)⌋₊ = W / (num_columns n W H + 1) := by
    rw [show ((num_columns n W H : ℚ) + 1) = ((num_columns n W H + 1 : ℕ) : ℚ) by push_cast; ring]
    rw [Nat.floor_div_nat, Nat.floor_natCast]
  have h2 : ⌊(H : ℚ) / (num_rows n W H : ℚ)⌋₊ = H / num_rows n W H := by
    rw [Nat.floor_div_nat, Nat.floor_natCast]
  rw [h1, h2]
  rfl

/-- C5: the row start offset is one gap on even rows and two gaps on odd
rows, so with at least two rows the offsets of rows 0 and 1 differ; each
item is placed at x = startGap + col·(iconSize + gapSize) and
y = (fullIconSize − iconSize)/2 + row·fullIconSize. -/
theorem row_stagger_and_positions (n W H : ℕ) (ratio : ℚ)
    (hn : 0 < n) (hW : 0 < W) (hH : 0 < H) (hratio : 0 ≤ ratio)
    (hrows : 2 ≤ num_rows n W H) :
    (∀ r, startGapAt n W H ratio r
        = gapAt n W H ratio r * (if r % 2 = 0 then 1 else 2))
    ∧ startGapAt n W H ratio 0 ≠ startGapAt n W H ratio 1
    ∧ (∀ k, k < placedCount n W H →
        xPosition n W H ratio k
            = startGapAt n W H ratio (rowOf n W H k)
              + (colOf n W H k : ℚ)
                * (iconAt n W H ratio (rowOf n W H k) + gapAt n W H ratio (rowOf n W H k))
          ∧ yPosition n W H ratio k
            = ((full_icon_size n W H : ℚ) - iconAt n W H ratio (rowOf n W H k)) / 2
              + (rowOf n W H k : ℚ) * (full_icon_size n W H : ℚ)) := by
  have hC := (num_columns_pos n W H hn hW hH).ne'
  have hgap := gapAt_pos n W H ratio hW hratio hC 0
  refine ⟨fun r => rfl, ?_, fun k _ => ⟨rfl, rfl⟩⟩
  unfold startGapAt
  rw [gapAt_const n W H ratio hC 1]
  norm_num
  linarith

/-- Witness for C5 at the worked example: rows 0 and 1 start at different offsets. -/
theorem row_stagger_and_positions_witness :
    startGapAt 10 1024 1024 (1 / 10) 0 ≠ startGapAt 10 1024 1024 (1 / 10) 1 :=
  (row_stagger_and_positions 10 1024 1024 (1 / 10) (by norm_num) (by norm_num)
    (by norm_num) (by norm_num) (by rw [ex10_rows]; norm_num)).2.1

/-- C6: for 10 items on a 1024×1024 canvas with min-gap ratio 0.1 the
planner yields 4 initial columns, 3 rows, 4 rebalanced columns, places all
10 items, leaves exactly 2 items in the last row, and keeps every placed
item inside the canvas. -/
theorem example_ten_items (k : ℕ) (hk : k < 10) :
    num_columns0 10 1024 1024 = 4
    ∧ num_rows 10 1024 1024 = 3
    ∧ num_columns 10 1024 1024 = 4
    ∧ placedCount 10 1024 1024 = 10
    ∧ itemsInRow 10 1024 1024 2 = 2
    ∧ withinCanvas 10 1024 1024 (1 / 10) k := by
  refine ⟨ex10_cols0, ex10_rows, ex10_cols, ?_, ?_, ex10_withinCanvas k hk⟩
  · unfold placedCount
    rw [ex10_rows, ex10_cols]
    rfl
  · unfold itemsInRow
    rw [ex10_cols]
    rfl

/-- Witness for C6 at the last placed item (index 9). -/
theorem example_ten_items_witness :
    num_columns 10 1024 1024 = 4 ∧ withinCanvas 10 1024 1024 (1 / 10) 9 := by
  have h := example_ten_items 9 (by norm_num)
  exact ⟨h.2.2.1, h.2.2.2.2.2⟩

/-- Counterexample to C10 as stated: at the worked example the start
offsets of rows 0 and 1 are not identical (one gap vs two gaps). -/
theorem start_offsets_differ_across_parity :
    startGapAt 10 1024 1024 (1 / 10) 0 ≠ startGapAt 10 1024 1024 (1 / 10) 1 := by
  rw [ex10_start0, ex10_start1]
  norm_num

/-- C10 (amended): every row uses the full grid column count, the
minimum-gap icon shrink persists into each following row, and icon size,
total gap and gap size are identical across all rows; start offsets
coincide on rows of equal parity. -/
theorem row_uniform_layout (n W H : ℕ) (ratio : ℚ) (r s : ℕ)
    (hn : 0 < n) (hW : 0 < W) (hH : 0 < H) :
    columnsInRow n W H r = num_columns n W H
    ∧ iconBefore n W H ratio (r + 1) = iconAt n W H ratio r
    ∧ iconAt n W H ratio r = iconAt n W H ratio s
    ∧ totalGapAt n W H ratio r = totalGapAt n W H ratio s
    ∧ gapAt n W H ratio r = gapAt n W H ratio s
    ∧ (r % 2 = s % 2 → startGapAt n W H ratio r = startGapAt n W H ratio s) := by
  have hC := (num_columns_pos n W H hn hW hH).ne'
  refine ⟨rfl, rfl, ?_, ?_, ?_, ?_⟩
  · rw [iconAt_const n W H ratio hC r, iconAt_const n W H ratio hC s]
  · rw [totalGapAt_const n W H ratio hC r, totalGapAt_const n W H ratio hC s]
  · rw [gapAt_const n W H ratio hC r, gapAt_const n W H ratio hC s]
  · intro hpar
    unfold startGapAt
    rw [gapAt_const n W H ratio hC r, gapAt_const n W H ratio hC s, hpar]

/-- Witness for C10 (amended): rows 0 and 2 of the worked example share
icon size, gap size and start offset. -/
theorem row_uniform_layout_witness :
    iconAt 10 1024 1024 (1 / 10) 0 = iconAt 10 1024 1024 (1 / 10) 2
    ∧ gapAt 10 1024 1024 (1 / 10) 0 = gapAt 10 1024 1024 (1 / 10) 2
    ∧ startGapAt 10 1024 1024 (1 / 10) 0 = startGapAt 10 1024 1024 (1 / 10) 2 := by
  have h := row_uniform_layout 10 1024 1024 (1 / 10) 0 2 (by norm_num) (by norm_num)
    (by norm_num)
  exact ⟨h.2.2.1, h.2.2.2.2.1, h.2.2.2.2.2 (by norm_num)⟩

/-- One directory entry as seen by the enumeration loop (lines 65-71):
its path string and whether `os.path.isfile` holds for it. -/
structure FileEntry where
  path : String
  isFile : Bool
deriving DecidableEq

/-- Model of Python `suffix`-testing `str.endswith`. -/
def strEndsWith (s pat : String) : Bool := pat.data.isSuffixOf s.data

/-- Model of Python `str.replace`: replace every non-overlapping occurrence
of `pat`, scanning left to right.  Fuel-indexed structural recursion; the
fuel is at least the text length, so it never runs out. -/
def replaceChars (pat rep : List Char) : ℕ → List Char → List Char
  | 0, s => s
  | _, [] => []
  | fuel + 1, c :: rest =>
    if pat.isPrefixOf (c :: rest) = true ∧ pat ≠ [] then
      rep ++ replaceChars pat rep fuel (List.drop (pat.length - 1) rest)
    else
      c :: replaceChars pat rep fuel rest

/-- String-level wrapper for `replaceChars`. -/
def strReplace (s pat rep : String) : String :=
  String.mk (replaceChars pat.data rep.data s.data.length s.data)

/-- The `.svg` extension string (line 68). -/
def svgExt : String := ".svg"

/-- The `.png` extension token used by the output-path substitutions. -/
def pngExt : String := ".png"

/-- The padded-output substitution token (line 156). -/
def paddingExt : String := "_extra_padding.png"

/-- The warped-output substitution token (line 164). -/
def perspectiveExt : String := "_perspective.png"

/-- Lines 66-71: keep non-`.svg` entries that are files, in order; `.svg`
entries are skipped (with a console warning) and the loop continues. -/
def selectImagePaths (entries : List FileEntry) : List String :=
  entries.filterMap fun e =>
    if strEndsWith e.path svgExt then none
    else if e.isFile then some e.path else none

/-- The three output paths of a successful run (lines 142, 156, 164):
the literal `output_path` plus the two `.png`-token substitutions. -/
def outputPaths (out : String) : List String :=
  [out, strReplace out pngExt paddingExt, strReplace out pngExt perspectiveExt]

/-- The config key read at line 146, after the base save. -/
def paddingFactorKey : String := "extra_padding_factor"

/-- The config key read at lines 159-160, after the padded save. -/
def perspectiveKey : String := "perspective_transform"

/-- Errors the modelled run can raise, at their source positions: the
line-76 `ValueError` for an empty usable-image list; a propagated decode
failure from `Image.open` (line 131); a `KeyError` for a config key that
is only read late — `extra_padding_factor` at line 146 and
`perspective_transform` at lines 159-160, both after output has already
been saved; and a propagated write failure from a `save` call (lines 142,
156, 164).  The five config keys of lines 58-62 are read before anything
else happens and enter the model as its parameters. -/
inductive RunError where
  | emptyInput
  | decodeFailure (path : String)
  | configKeyError (key : String)
  | writeFailure (path : String)
deriving DecidableEq

/-- Observable events of a run, in program order: each icon decode attempt
(line 131) and each output-file write (lines 142, 156, 164). -/
inductive RunEvent where
  | decode (path : String) (ok : Bool)
  | write (path : String)
deriving DecidableEq

/-- Decode attempts in loop order; a failing decode raises, so no later
event happens. -/
def decodeEvents (decodes : String → Bool) : List String → List RunEvent
  | [] => []
  | p :: ps =>
    if decodes p then RunEvent.decode p true :: decodeEvents decodes ps
    else [RunEvent.decode p false]

/-- First path in the placed list whose decode fails, if any. -/
def firstBadDecode (decodes : String → Bool) (ps : List String) : Option String :=
  ps.find? fun p => !(decodes p)

/-- The placed prefix of the usable paths: the composition loop opens
exactly the first `placedCount` of them. -/
def placedPaths (W H : ℕ) (paths : List String) : List String :=
  paths.take (placedCount paths.length W H)

/-- The output phase of `generate_background_image` (lines 140-164) in
source order, once composition has succeeded: save the base canvas at
`output_path` (line 142); read `config["extra_padding_factor"]` (line 146,
`KeyError` if absent); save the padded canvas (line 156); read
`config["perspective_transform"]` (lines 159-160, `KeyError` if absent);
save the warped canvas (line 164).  `hasPad`/`hasPersp` say whether the
two late config keys exist; `canWrite` says whether a `save` to a path
succeeds.  Returns the write events that happened, in order, and the
first error (if any) — a failure aborts the phase but the earlier writes
have already happened. -/
def outputTail (hasPad hasPersp : Bool) (canWrite : String → Bool) (out : String) :
    List RunEvent × Option RunError :=
  if canWrite out then
    if hasPad then
      if canWrite (strReplace out pngExt paddingExt) then
        if hasPersp then
          if canWrite (strReplace out pngExt perspectiveExt) then
            ([RunEvent.write out, RunEvent.write (strReplace out pngExt paddingExt),
                RunEvent.write (strReplace out pngExt perspectiveExt)], none)
          else
            ([RunEvent.write out, RunEvent.write (strReplace out pngExt paddingExt)],
              some (RunError.writeFailure (strReplace out pngExt perspectiveExt)))
        else
          ([RunEvent.write out, RunEvent.write (strReplace out pngExt paddingExt)],
            some (RunError.configKeyError perspectiveKey))
      else
        ([RunEvent.write out],
          some (RunError.writeFailure (strReplace out pngExt paddingExt)))
    else
      ([RunEvent.write out], some (RunError.configKeyError paddingFactorKey))
  else
    ([], some (RunError.writeFailure out))

/-- Event trace of `generate_background_image`: nothing at all when the
empty-input error fires (line 76 precedes all canvas work); the decode
events of the placed icons, cut short by the first failing decode; and —
only if every decode succeeded — the write events of the output phase,
which may stop early at a late config read or a failed save. -/
def runTrace (entries : List FileEntry) (decodes : String → Bool) (W H : ℕ)
    (out : String) (hasPad hasPersp : Bool) (canWrite : String → Bool) : List RunEvent :=
  if (selectImagePaths entries).length = 0 then []
  else
    match firstBadDecode decodes (placedPaths W H (selectImagePaths entries)) with
    | some _ => decodeEvents decodes (placedPaths W H (selectImagePaths entries))
    | none =>
        decodeEvents decodes (placedPaths W H (selectImagePaths entries))
          ++ (outputTail hasPad hasPersp canWrite out).1

/-- Result of `generate_background_image`: the empty-input error, a
propagated decode failure, the first output-phase error (late config
`KeyError` or save failure), or success. -/
def runResult (entries : List FileEntry) (decodes : String → Bool) (W H : ℕ)
    (out : String) (hasPad hasPersp : Bool) (canWrite : String → Bool) :
    Except RunError Unit :=
  if (selectImagePaths entries).length = 0 then Except.error RunError.emptyInput
  else
    match firstBadDecode decodes (placedPaths W H (selectImagePaths entries)) with
    | some p => Except.error (RunError.decodeFailure p)
    | none =>
        match (outputTail hasPad hasPersp canWrite out).2 with
        | some e => Except.error e
        | none => Except.ok ()

/-- The file paths written during a trace, in order. -/
def writesOf (tr : List RunEvent) : List String :=
  tr.filterMap fun e =>
    match e with
    | RunEvent.write p => some p
    | _ => none

/-- Geometry of `perspective_transform` (lines 15-54), with the library's
cosine and sine of the angle in radians taken as inputs: the downscaled
size, the affine rotation coefficients, and the projective coefficients. -/
structure WarpResult where
  new_width : ℕ
  new_height : ℕ
  rotation_matrix : ℚ × ℚ × ℚ × ℚ × ℚ × ℚ
  coeffs : ℚ × ℚ × ℚ × ℚ × ℚ × ℚ × ℚ × ℚ × ℚ

/-- Model of `perspective_transform`: `new_width = int(width * 0.50)`,
`new_height = int(height * 0.50)`, the rotation matrix of lines 36-39 and
the perspective coefficient matrix of lines 45-49. -/
def perspective_transform (width height : ℕ) (cos_theta sin_theta skew_factor : ℚ) :
    WarpResult where
  new_width := width / 2
  new_height := height / 2
  rotation_matrix :=
    (cos_theta, -sin_theta,
      ((width / 2 : ℕ) : ℚ) / 2 * (1 - cos_theta) + ((height / 2 : ℕ) : ℚ) / 2 * sin_theta,
      sin_theta, cos_theta,
      ((height / 2 : ℕ) : ℚ) / 2 * (1 - cos_theta) - ((width / 2 : ℕ) : ℚ) / 2 * sin_theta)
  coeffs :=
    (1, skew_factor, -((width / 2 : ℕ) : ℚ) * skew_factor,
      0, 1, -((height / 2 : ℕ) : ℚ) * skew_factor,
      0, skew_factor, 1)

/-- A decode-event list contains no writes. -/
theorem writesOf_decodeEvents (decodes : String → Bool) :
    ∀ ps : List String, writesOf (decodeEvents decodes ps) = []
  | [] => rfl
  | p :: ps => by
    unfold decodeEvents
    split
    · exact writesOf_decodeEvents decodes ps
    · rfl

/-- Writes of a pure write list are exactly its paths. -/
theorem writesOf_map_write : ∀ l : List String, writesOf (l.map RunEvent.write) = l
  | [] => rfl
  | p :: ps => congrArg (List.cons p) (writesOf_map_write ps)

/-- Output-phase errors are late errors: never the empty-input error and
never a decode failure. -/
theorem outputTail_error_late (hasPad hasPersp : Bool) (canWrite : String → Bool)
    (out : String) (e : RunError) (he : (outputTail hasPad hasPersp canWrite out).2 = some e) :
    e ≠ RunError.emptyInput ∧ ∀ p, e ≠ RunError.decodeFailure p := by
  unfold outputTail at he
  split_ifs at he <;> simp at he <;> subst he <;> exact ⟨by simp, fun p => by simp⟩

/-- A clean output phase wrote exactly the three artifacts, in order. -/
theorem outputTail_none_writes (hasPad hasPersp : Bool) (canWrite : String → Bool)
    (out : String) (he : (outputTail hasPad hasPersp canWrite out).2 = none) :
    writesOf (outputTail hasPad hasPersp canWrite out).1
      = [out, strReplace out pngExt paddingExt, strReplace out pngExt perspectiveExt] := by
  unfold outputTail at he ⊢
  split_ifs at he ⊢ <;> simp at he
  rfl

/-- Whatever happens, the output phase writes an in-order prefix of the
three artifact paths. -/
theorem outputTail_writes_prefix (hasPad hasPersp : Bool) (canWrite : String → Bool)
    (out : String) :
    ∃ k, writesOf (outputTail hasPad hasPersp canWrite out).1
      = [out, strReplace out pngExt paddingExt,
          strReplace out pngExt perspectiveExt].take k := by
  unfold outputTail
  split_ifs
  · exact ⟨3, rfl⟩
  · exact ⟨2, rfl⟩
  · exact ⟨2, rfl⟩
  · exact ⟨1, rfl⟩
  · exact ⟨1, rfl⟩
  · exact ⟨0, rfl⟩

/-- A run that fails with the empty-input error has an empty usable list:
every other exit of `runResult` carries a different constructor. -/
theorem runResult_emptyInput (entries : List FileEntry) (decodes : String → Bool)
    (W H : ℕ) (out : String) (hasPad hasPersp : Bool) (canWrite : String → Bool)
    (hres : runResult entries decodes W H out hasPad hasPersp canWrite
      = Except.error RunError.emptyInput) :
    selectImagePaths entries = [] := by
  unfold runResult at hres
  split at hres
  · rename_i hlen
    exact List.length_eq_zero.mp hlen
  · split at hres
    · simp at hres
    · split at hres
      · rename_i e ho
        simp at hres
        exact absurd hres (outputTail_error_late hasPad hasPersp canWrite out e ho).1
      · simp at hres

/-- C7: the run fails with the empty-input error exactly when the usable
image list is empty, that failure precedes all canvas work (empty event
trace), `.svg` paths never enter the usable list, and removing an `.svg`
entry from anywhere in the directory listing leaves the usable list
unchanged (processing continues past it). -/
theorem empty_input_iff (entries : List FileEntry) (decodes : String → Bool)
    (W H : ℕ) (out : String) (hasPad hasPersp : Bool) (canWrite : String → Bool) :
    (runResult entries decodes W H out hasPad hasPersp canWrite
        = Except.error RunError.emptyInput
      ↔ selectImagePaths entries = [])
    ∧ (runResult entries decodes W H out hasPad hasPersp canWrite
          = Except.error RunError.emptyInput →
        runTrace entries decodes W H out hasPad hasPersp canWrite = [])
    ∧ (∀ p : String, strEndsWith p svgExt = true → p ∉ selectImagePaths entries)
    ∧ (∀ pre post : List FileEntry, ∀ e : FileEntry, strEndsWith e.path svgExt = true →
        selectImagePaths (pre ++ e :: post) = selectImagePaths (pre ++ post)) := by
  refine ⟨?_, ?_, ?_, ?_⟩
  · constructor
    · exact runResult_emptyInput entries decodes W H out hasPad hasPersp canWrite
    · intro hsel
      unfold runResult
      rw [if_pos (by rw [hsel]; rfl)]
  · intro hres
    have hsel := runResult_emptyInput entries decodes W H out hasPad hasPersp canWrite hres
    unfold runTrace
    rw [if_pos (by rw [hsel]; rfl)]
  · intro p hp hmem
    unfold selectImagePaths at hmem
    rw [List.mem_filterMap] at hmem
    obtain ⟨e, _, heq⟩ := hmem
    by_cases h1 : strEndsWith e.path svgExt = true
    · rw [if_pos h1] at heq
      simp at heq
    · rw [if_neg h1] at heq
      by_cases h2 : e.isFile = true
      · rw [if_pos h2] at heq
        simp only [Option.some.injEq] at heq
        rw [heq] at h1
        exact h1 hp
      · rw [if_neg h2] at heq
        simp at heq
  · intro pre post e he
    unfold selectImagePaths
    rw [List.filterMap_append, List.filterMap_append, List.filterMap_cons]
    simp [he]

/-- Witness for C7: a directory holding a single `.svg` file raises the
empty-input error with no canvas work, and its path is excluded. -/
theorem empty_input_iff_witness :
    runResult [⟨"icons/logo.svg", true⟩] (fun _ => true) 64 64 "out/wall.png" true true
        (fun _ => true) = Except.error RunError.emptyInput
    ∧ runTrace [⟨"icons/logo.svg", true⟩] (fun _ => true) 64 64 "out/wall.png" true true
        (fun _ => true) = []
    ∧ "icons/logo.svg" ∉ selectImagePaths [⟨"icons/logo.svg", true⟩] := by
  have h := empty_input_iff [⟨"icons/logo.svg", true⟩] (fun _ => true) 64 64 ("out/wall.png")
    true true (fun _ => true)
  have hsel : selectImagePaths [⟨"icons/logo.svg", true⟩] = [] := by decide
  exact ⟨h.1.mpr hsel, h.2.1 (h.1.mpr hsel), h.2.2.1 ("icons/logo.svg") (by decide)⟩

/-- Evaluation helper: on a 1×1 canvas with one usable image the
placement loop opens exactly that image. -/
theorem placedPaths_single :
    placedPaths 1 1 [("icons/a.png" : String)] = [("icons/a.png" : String)] := by
  unfold placedPaths
  have h : placedCount 1 1 1 = 1 := by
    unfold placedCount
    rw [ex1_rows, ex1_cols]
    rfl
  rw [show ([("icons/a.png" : String)].length) = 1 from rfl, h]
  rfl

/-- Evaluation helper: same as `placedPaths_single` for a second path. -/
theorem placedPaths_single_b :
    placedPaths 1 1 [("icons/b.png" : String)] = [("icons/b.png" : String)] := by
  unfold placedPaths
  have h : placedCount 1 1 1 = 1 := by
    unfold placedCount
    rw [ex1_rows, ex1_cols]
    rfl
  rw [show ([("icons/b.png" : String)].length) = 1 from rfl, h]
  rfl

/-- Counterexample to C8 as stated: with one valid image and a config
missing `extra_padding_factor`, the run is aborted by a fatal error (the
line-146 `KeyError`), yet the base PNG has already been written at line
142 — the abort does not precede all output writes. -/
theorem partial_output_on_late_config_error :
    runResult [⟨"icons/a.png", true⟩] (fun _ => true) 1 1 "out/wall.png" false true
        (fun _ => true) = Except.error (RunError.configKeyError paddingFactorKey)
    ∧ writesOf (runTrace [⟨"icons/a.png", true⟩] (fun _ => true) 1 1 "out/wall.png" false true
        (fun _ => true)) = ["out/wall.png"] := by
  have hsel : selectImagePaths [⟨"icons/a.png", true⟩] = [("icons/a.png" : String)] := by
    decide
  constructor
  · unfold runResult
    rw [hsel, placedPaths_single]
    rfl
  · unfold runTrace
    rw [hsel, placedPaths_single]
    rfl

/-- C8 (amended): errors raised before the first save — the empty-input
error and decode failures — abort the run with no output written; a
successful run writes exactly the three PNG artifacts (the literal output
path and the two `.png`-token substitutions); and in every case the
written files form an in-order prefix of those three paths, so a late
config `KeyError` (lines 146/159-160) or save failure leaves exactly the
artifacts already saved before it. -/
theorem run_output_ledger (entries : List FileEntry) (decodes : String → Bool)
    (W H : ℕ) (out : String) (hasPad hasPersp : Bool) (canWrite : String → Bool) :
    (runResult entries decodes W H out hasPad hasPersp canWrite
          = Except.error RunError.emptyInput →
        writesOf (runTrace entries decodes W H out hasPad hasPersp canWrite) = [])
    ∧ (∀ p, runResult entries decodes W H out hasPad hasPersp canWrite
          = Except.error (RunError.decodeFailure p) →
        writesOf (runTrace entries decodes W H out hasPad hasPersp canWrite) = [])
    ∧ (runResult entries decodes W H out hasPad hasPersp canWrite = Except.ok () →
        writesOf (runTrace entries decodes W H out hasPad hasPersp canWrite)
          = [out, strReplace out pngExt paddingExt, strReplace out pngExt perspectiveExt])
    ∧ (∃ k, writesOf (runTrace entries decodes W H out hasPad hasPersp canWrite)
          = [out, strReplace out pngExt paddingExt,
              strReplace out pngExt perspectiveExt].take k) := by
  unfold runResult runTrace
  by_cases h : (selectImagePaths entries).length = 0
  · rw [if_pos h, if_pos h]
    exact ⟨fun _ => rfl, fun p _ => rfl, fun hok => by simp at hok, ⟨0, rfl⟩⟩
  · rw [if_neg h, if_neg h]
    rcases hfd : firstBadDecode decodes (placedPaths W H (selectImagePaths entries)) with
      _ | p
    · have hw : writesOf (decodeEvents decodes (placedPaths W H (selectImagePaths entries))
          ++ (outputTail hasPad hasPersp canWrite out).1)
          = writesOf (outputTail hasPad hasPersp canWrite out).1 := by
        unfold writesOf
        rw [List.filterMap_append]
        have h1 := writesOf_decodeEvents decodes (placedPaths W H (selectImagePaths entries))
        unfold writesOf at h1
        rw [h1]
        rfl
      rcases ho : (outputTail hasPad hasPersp canWrite out).2 with _ | e
      · refine ⟨fun hres => by simp at hres, fun p hp => by simp at hp, fun _ => ?_, ?_⟩
        · rw [hw]
          exact outputTail_none_writes hasPad hasPersp canWrite out ho
        · obtain ⟨k, hk⟩ := outputTail_writes_prefix hasPad hasPersp canWrite out
          exact ⟨k, by rw [hw, hk]⟩
      · refine ⟨fun hres => ?_, fun p hp => ?_, fun hok => by simp at hok, ?_⟩
        · simp at hres
          exact absurd hres (outputTail_error_late hasPad hasPersp canWrite out e ho).1
        · simp at hp
          exact absurd hp ((outputTail_error_late hasPad hasPersp canWrite out e ho).2 p)
        · obtain ⟨k, hk⟩ := outputTail_writes_prefix hasPad hasPersp canWrite out
          exact ⟨k, by rw [hw, hk]⟩
    · exact ⟨fun _ => writesOf_decodeEvents decodes _, fun q _ => writesOf_decodeEvents decodes _,
        fun hok => by simp at hok, ⟨0, writesOf_decodeEvents decodes _⟩⟩

/-- Witness for C8 (amended): a fully successful run writes exactly the
three derived paths, and a run aborted by a decode failure writes nothing. -/
theorem run_output_ledger_witness :
    writesOf (runTrace [⟨"icons/a.png", true⟩] (fun _ => true) 1 1 "out/wall.png" true true
        (fun _ => true))
      = ["out/wall.png", "out/wall_extra_padding.png", "out/wall_perspective.png"]
    ∧ writesOf (runTrace [⟨"icons/b.png", true⟩] (fun _ => false) 1 1 "out/wall.png" true true
        (fun _ => true)) = [] := by
  have hok : runResult [⟨"icons/a.png", true⟩] (fun _ => true) 1 1 "out/wall.png" true true
      (fun _ => true) = Except.ok () := by
    unfold runResult
    rw [show selectImagePaths [⟨"icons/a.png", true⟩] = [("icons/a.png" : String)] from by decide]
    rw [placedPaths_single]
    rfl
  have herr : runResult [⟨"icons/b.png", true⟩] (fun _ => false) 1 1 "out/wall.png" true true
      (fun _ => true) = Except.error (RunError.decodeFailure ("icons/b.png")) := by
    unfold runResult
    rw [show selectImagePaths [⟨"icons/b.png", true⟩] = [("icons/b.png" : String)] from by decide]
    rw [placedPaths_single_b]
    rfl
  constructor
  · have h2 := (run_output_ledger [⟨"icons/a.png", true⟩] (fun _ => true) 1 1
      ("out/wall.png") true true (fun _ => true)).2.2.1 hok
    rw [h2]
    have hpad : strReplace ("out/wall.png") pngExt paddingExt = "out/wall_extra_padding.png" := by
      decide
    have hper : strReplace ("out/wall.png") pngExt perspectiveExt
        = "out/wall_perspective.png" := by
      decide
    rw [hpad, hper]
  · exact (run_output_ledger [⟨"icons/b.png", true⟩] (fun _ => false) 1 1
      ("out/wall.png") true true (fun _ => true)).2.1 ("icons/b.png") herr

/-- C9: the warp downscales to 50% in both dimensions (integer-truncated),
rotates with the affine matrix built from cos/sin with the centering
translation terms, and applies the projective coefficient matrix
[[1, skew, −w·skew], [0, 1, −h·skew], [0, skew, 1]] of the downscaled size. -/
theorem perspective_warp_matrices (width height : ℕ)
    (cos_theta sin_theta skew_factor : ℚ) :
    (perspective_transform width height cos_theta sin_theta skew_factor).new_width
        = ⌊(width : ℚ) * (50 / 100)⌋₊
    ∧ (perspective_transform width height cos_theta sin_theta skew_factor).new_height
        = ⌊(height : ℚ) * (50 / 100)⌋₊
    ∧ (perspective_transform width height cos_theta sin_theta skew_factor).rotation_matrix
        = (cos_theta, -sin_theta,
            ((perspective_transform width height cos_theta sin_theta skew_factor).new_width : ℚ)
                / 2 * (1 - cos_theta)
              + ((perspective_transform width height cos_theta sin_theta
                  skew_factor).new_height : ℚ) / 2 * sin_theta,
            sin_theta, cos_theta,
            ((perspective_transform width height cos_theta sin_theta
                skew_factor).new_height : ℚ) / 2 * (1 - cos_theta)
              - ((perspective_transform width height cos_theta sin_theta
                  skew_factor).new_width : ℚ) / 2 * sin_theta)
    ∧ (perspective_transform width height cos_theta sin_theta skew_factor).coeffs
        = (1, skew_factor,
            -((perspective_transform width height cos_theta sin_theta
                skew_factor).new_width : ℚ) * skew_factor,
            0, 1,
            -((perspective_transform width height cos_theta sin_theta
                skew_factor).new_height : ℚ) * skew_factor,
            0, skew_factor, 1) := by
  refine ⟨?_, ?_, rfl, rfl⟩
  · rw [show (width : ℚ) * (50 / 100) = (width : ℚ) / ((2 : ℕ) : ℚ) by push_cast; ring]
    rw [Nat.floor_div_nat, Nat.floor_natCast]
    rfl
  · rw [show (height : ℚ) * (50 / 100) = (height : ℚ) / ((2 : ℕ) : ℚ) by push_cast; ring]
    rw [Nat.floor_div_nat, Nat.floor_natCast]
    rfl

end IconWall
